import Mathlib

/-!
Verification of the camilladsp realtime-pipeline slice: the biquad filter
kernel and coefficient design (src/biquad.rs) and the ALSA capture and
playback loops (src/alsadevice.rs).

Floating-point sample values (the Rust `PrcFmt = f64`) are modelled by exact
rationals `ℚ` where the code is pure arithmetic, and by real numbers `ℝ`
where the coefficient formulas use transcendental functions.  Stateful loops
are modelled by explicit state passing over lists of per-iteration inputs;
the nondeterministic environment (device states, timers, read results) is an
explicit input of each iteration.
-/

namespace Camilla

/-! ## Biquad kernel (src/biquad.rs)

`BiquadCoefficients` holds the five normalized coefficients, `Biquad` adds
the two delay registers `s1`, `s2` of the transposed direct-form II kernel. -/

structure BiquadCoefficients where
  a1 : ℚ
  a2 : ℚ
  b0 : ℚ
  b1 : ℚ
  b2 : ℚ
deriving DecidableEq, Repr

structure Biquad where
  s1 : ℚ
  s2 : ℚ
  coeffs : BiquadCoefficients
deriving DecidableEq, Repr

/-- Model of `Biquad::process_single`: one step of the transposed
direct-form II kernel.  Returns the updated filter together with the output
sample. -/
def Biquad.process_single (f : Biquad) (input : ℚ) : Biquad × ℚ :=
  let out := f.s1 + f.coeffs.b0 * input
  let s1 := f.s2 + f.coeffs.b1 * input - f.coeffs.a1 * out
  let s2 := f.coeffs.b2 * input - f.coeffs.a2 * out
  (⟨s1, s2, f.coeffs⟩, out)

/-- The loop body of `Biquad::process_waveform`: apply `process_single` to
each sample in order, threading the delay state, and collect the outputs
(the Rust code overwrites the samples in place). -/
def Biquad.process_list (f : Biquad) : List ℚ → Biquad × List ℚ
  | [] => (f, [])
  | x :: xs =>
    let step := f.process_single x
    let rest := step.1.process_list xs
    (rest.1, step.2 :: rest.2)

/-- Model of `<Biquad as Filter>::process_waveform`: the loop over the
waveform followed by `Ok(())`.  The Rust return type is `Res<()> =
Result<(), Box<dyn Error>>`; the body has no error exit. -/
def Biquad.process_waveform (f : Biquad) (waveform : List ℚ) :
    Except String (Biquad × List ℚ) :=
  Except.ok (f.process_list waveform)

/-! ## Biquad coefficient design (`BiquadCoefficients::from_config`)

The Highshelf and Lowshelf arms compute a pre-normalization sextuple
`{a0,a1,a2,b0,b1,b2}` from the intermediate values `ampl`, `cs`, `beta`;
these are modelled over `ℝ`, with `sin`, `cos`, `sqrt` and `powf` as the
corresponding real functions. -/

/-- Pre-normalization coefficient sextuple, as computed by a
`BiquadCoefficients::from_config` arm before the call to `normalize`. -/
structure RawCoeffs where
  a0 : ℝ
  a1 : ℝ
  a2 : ℝ
  b0 : ℝ
  b1 : ℝ
  b2 : ℝ

/-- Model of `omega = 2.0 * PI * freq / (fs as PrcFmt)`. -/
noncomputable def omegaOf (fs : ℕ) (freq : ℝ) : ℝ :=
  2 * Real.pi * freq / fs

/-- Model of `ampl = (10.0).powf(gain / 40.0)`. -/
noncomputable def amplOf (gain : ℝ) : ℝ :=
  (10 : ℝ) ^ (gain / 40)

/-- Model of the shelf `alpha = sn / 2.0 * sqrt((ampl + 1/ampl) * (1/(slope/12) - 1) + 2)`. -/
noncomputable def shelfAlpha (sn ampl slope : ℝ) : ℝ :=
  sn / 2 * Real.sqrt ((ampl + 1 / ampl) * (1 / (slope / 12) - 1) + 2)

/-- Model of the shelf `beta = 2.0 * sqrt(ampl) * alpha`. -/
noncomputable def shelfBeta (ampl alpha : ℝ) : ℝ :=
  2 * Real.sqrt ampl * alpha

/-- The six pre-normalization expressions of the `Highshelf` arm of
`BiquadCoefficients::from_config`, as functions of the intermediate values
`ampl`, `cs`, `beta`. -/
noncomputable def highshelfRaw (ampl cs beta : ℝ) : RawCoeffs where
  b0 := ampl * ((ampl + 1) + (ampl - 1) * cs + beta)
  b1 := -2 * ampl * ((ampl - 1) + (ampl + 1) * cs)
  b2 := ampl * ((ampl + 1) + (ampl - 1) * cs - beta)
  a0 := (ampl + 1) - (ampl - 1) * cs + beta
  a1 := 2 * ((ampl - 1) - (ampl + 1) * cs)
  a2 := (ampl + 1) - (ampl - 1) * cs - beta

/-- The six pre-normalization expressions of the `Lowshelf` arm of
`BiquadCoefficients::from_config`. -/
noncomputable def lowshelfRaw (ampl cs beta : ℝ) : RawCoeffs where
  b0 := ampl * ((ampl + 1) - (ampl - 1) * cs + beta)
  b1 := 2 * ampl * ((ampl - 1) - (ampl + 1) * cs)
  b2 := ampl * ((ampl + 1) - (ampl - 1) * cs - beta)
  a0 := (ampl + 1) + (ampl - 1) * cs + beta
  a1 := -2 * ((ampl - 1) + (ampl + 1) * cs)
  a2 := (ampl + 1) + (ampl - 1) * cs - beta

/-- The `Highshelf` arm of `from_config`: intermediate values computed from
`fs`, `freq`, `slope`, `gain` exactly as in the source, then the raw
sextuple. -/
noncomputable def highshelfFromConfig (fs : ℕ) (freq slope gain : ℝ) : RawCoeffs :=
  let omega := omegaOf fs freq
  let sn := Real.sin omega
  let cs := Real.cos omega
  let ampl := amplOf gain
  let alpha := shelfAlpha sn ampl slope
  let beta := shelfBeta ampl alpha
  highshelfRaw ampl cs beta

/-- The `Lowshelf` arm of `from_config`, with the identical intermediate
values. -/
noncomputable def lowshelfFromConfig (fs : ℕ) (freq slope gain : ℝ) : RawCoeffs :=
  let omega := omegaOf fs freq
  let sn := Real.sin omega
  let cs := Real.cos omega
  let ampl := amplOf gain
  let alpha := shelfAlpha sn ampl slope
  let beta := shelfBeta ampl alpha
  lowshelfRaw ampl cs beta

/-- Modelled from the spec's words for the Lowshelf row: the Highshelf
coefficient expressions with the sign of every `cs` term swapped in both
numerators and denominators, i.e. the Highshelf expressions evaluated at
`-cs` (each `cs` term is linear in `cs`). -/
noncomputable def highshelfCsSwappedFromConfig (fs : ℕ) (freq slope gain : ℝ) : RawCoeffs :=
  let omega := omegaOf fs freq
  let sn := Real.sin omega
  let cs := Real.cos omega
  let ampl := amplOf gain
  let alpha := shelfAlpha sn ampl slope
  let beta := shelfBeta ampl alpha
  highshelfRaw ampl (-cs) beta

/-! ## SetSpeed dispatch in the capture loop (src/alsadevice.rs)

The `CommandMessage::SetSpeed` arm of `capture_loop_bytes` writes to the
hardware rate-shift control when present, else to the USB-gadget pitch
control when present, else adjusts an asynchronous resampler.  The presence
of the controls and of the resampler is environment data, modelled as a
record of flags; the effect on the chosen target is the result. -/

/-- Model of the Rust `as i32` cast applied to an `f64` value: truncation
toward zero, saturating at the `i32` bounds. -/
def castToI32 (x : ℚ) : ℤ :=
  let t : ℤ := if 0 ≤ x then Int.floor x else Int.ceil x
  max (-(2 ^ 31)) (min (2 ^ 31 - 1) t)

/-- The adjustment effect of one `SetSpeed` command: which target receives
the new ratio, and the value written to it. -/
inductive SetSpeedEffect where
  | writeLoopback (value : ℤ)
  | writeUac2 (value : ℤ)
  | adjustResampler (speed : ℚ)
  | noAdjust
deriving DecidableEq, Repr

/-- Environment of the `SetSpeed` arm: whether `find_elem` found the
`"PCM Rate Shift 100000"` element, whether it found the
`"Capture Pitch 1000000"` element, whether a resampler is installed, and
whether it is asynchronous (`params.async_src`). -/
structure RateAdjustTargets where
  loopbackPresent : Bool
  uac2Present : Bool
  resamplerPresent : Bool
  asyncSrc : Bool
deriving DecidableEq, Repr

/-- Model of the `Ok(CommandMessage::SetSpeed { speed })` arm of
`capture_loop_bytes`: `element_loopback` gets `(100_000.0 / speed) as i32`,
else `element_uac2_gadget` gets `(speed * 1_000_000.0) as i32`, else an
async resampler gets `set_resample_ratio_relative(speed)`; a synchronous
resampler, or the absence of all targets, adjusts nothing. -/
def handle_set_speed (t : RateAdjustTargets) (speed : ℚ) : SetSpeedEffect :=
  if t.loopbackPresent then
    SetSpeedEffect.writeLoopback (castToI32 (100000 / speed))
  else if t.uac2Present then
    SetSpeedEffect.writeUac2 (castToI32 (speed * 1000000))
  else if t.resamplerPresent then
    if t.asyncSrc then SetSpeedEffect.adjustResampler speed
    else SetSpeedEffect.noAdjust
  else SetSpeedEffect.noAdjust

/-! ## Reading a PCM block: `capture_buffer` (src/alsadevice.rs)

The function interacts with the device through fallible calls (`state`,
`prepare`, `start`, `avail`, `readi`); the outcomes of those calls are the
environment, collected in `CaptureDev` in the order the code can make them. -/

/-- Errno classification of an alsa error, as seen through
`err.nix_error()`; errors other than `EIO` and `EPIPE` are told apart by an
abstract tag. -/
inductive Errno where
  | EIO
  | EPIPE
  | other (n : ℕ)
deriving DecidableEq, Repr

/-- Device state as reported by `pcmdevice.state()` (the states the code
distinguishes). -/
inductive PcmState where
  | XRun
  | Running
  | Prepared
  | Setup
deriving DecidableEq, Repr

/-- The `CaptureResult` enum of src/alsadevice.rs. -/
inductive CaptureResult where
  | Normal
  | RecoverableError
deriving DecidableEq, Repr

/-- Environment of one `capture_buffer` call: the device state and the
results of each fallible device interaction.  `none` models a successful
`prepare`/`start`; `prepareRes2` and `readRes2` are the results of the
`prepare` and the re-issued `readi` inside the EPIPE branch.  The second
availability query is `avail().unwrap_or(0)`, hence infallible. -/
structure CaptureDev where
  state : PcmState
  prepareRes : Option Errno
  startRes : Option Errno
  availRes : Except Errno ℕ
  availAfterWait : ℕ
  readRes : Except Errno ℕ
  prepareRes2 : Option Errno
  readRes2 : Except Errno ℕ
deriving Repr

/-- Model of `capture_buffer`: prepare on `XRun`, start when not `Running`,
the optional `avoid_blocking` availability check, then the interleaved read
with its error dispatch on `EIO` / `EPIPE` / anything else. -/
def capture_buffer (d : CaptureDev) (retry avoid_blocking : Bool)
    (_samplerate frames_to_read : ℕ) : Except Errno CaptureResult :=
  let stateRes : Option Errno :=
    if d.state = PcmState.XRun then d.prepareRes
    else if d.state ≠ PcmState.Running then d.startRes
    else none
  match stateRes with
  | some e => Except.error e
  | none =>
    let preRead : Except Errno (Option CaptureResult) :=
      if avoid_blocking then
        match d.availRes with
        | Except.ok frames =>
          if frames < frames_to_read then
            if d.availAfterWait < frames_to_read then
              Except.ok (some CaptureResult.RecoverableError)
            else Except.ok none
          else Except.ok none
        | Except.error err =>
          if retry then Except.ok (some CaptureResult.RecoverableError)
          else Except.error err
      else Except.ok none
    match preRead with
    | Except.error e => Except.error e
    | Except.ok (some r) => Except.ok r
    | Except.ok none =>
      match d.readRes with
      | Except.ok _ => Except.ok CaptureResult.Normal
      | Except.error Errno.EIO =>
        if retry then Except.ok CaptureResult.RecoverableError
        else Except.error Errno.EIO
      | Except.error Errno.EPIPE =>
        if retry then
          match d.prepareRes2 with
          | some e => Except.error e
          | none =>
            match d.readRes2 with
            | Except.ok _ => Except.ok CaptureResult.Normal
            | Except.error e => Except.error e
        else Except.error Errno.EPIPE
      | Except.error (Errno.other n) => Except.error (Errno.other n)

/-! ## Playback loop: `playback_loop_bytes` (src/alsadevice.rs)

The loop is driven by the messages received on the audio channel.  The
per-iteration environment (device delay reading, stopwatch expiry, averager
contents, write result) is packaged with each `Audio` message; the loop's
observable output is the ordered list of status messages it sends. -/

/-- Modelled from the spec: `calculate_speed` is called by
`playback_loop_bytes` but defined outside this slice of the repository;
§4.2.1 gives `speed = 1 + (d − T) / (P × R)` for average delay `d`, target
level `T`, adjustment period `P` and rate `R`. -/
def calculate_speed (avDelay : ℚ) (target_level : ℕ) (adjust_period : ℚ)
    (srate : ℕ) : ℚ :=
  1 + (avDelay - target_level) / (adjust_period * srate)

/-- The status messages the playback loop can send. -/
inductive PbStatusMessage where
  | setSpeed (speed : ℚ)
  | playbackError (msg : String)
  | playbackDone
deriving DecidableEq, Repr

/-- Environment of one `Audio(chunk)` iteration: the clipped-sample count
returned by the byte conversion, the device delay reading (when
`pcmdevice.status()` succeeds), whether the stopwatch exceeded the
adjustment period, the delay averager's value (when non-empty), and the
result of `play_buffer` (`some msg` is a write failure surviving the
internal prepare-and-retry). -/
structure PbChunkIter where
  clippedSamples : ℕ
  delay : Option ℚ
  timerElapsed : Bool
  avgDelay : Option ℚ
  playError : Option String
deriving Repr

/-- One message received from the playback loop's audio channel, or a
channel error. -/
inductive PbEvent where
  | audio (it : PbChunkIter)
  | endOfStream
  | recvError (msg : String)
deriving Repr

/-- The parameters of `playback_loop_bytes` relevant to its status
output. -/
structure PbParams where
  target_level : ℕ
  adjust_period : ℚ
  adjust_enabled : Bool
  srate : ℕ
deriving Repr

/-- Status messages sent during one `Audio(chunk)` iteration of
`playback_loop_bytes`: a `SetSpeed` when the stopwatch elapsed, the
averager holds a value and `adjust = adjust_period > 0.0 &&
adjust_enabled`; then a `PlaybackError` when `play_buffer` failed. -/
def playback_iteration (p : PbParams) (it : PbChunkIter) :
    List PbStatusMessage :=
  let adjust := decide (0 < p.adjust_period) && p.adjust_enabled
  let speedMsgs :=
    if it.timerElapsed then
      match it.avgDelay with
      | some d =>
        if adjust then
          [PbStatusMessage.setSpeed
            (calculate_speed d p.target_level p.adjust_period p.srate)]
        else []
      | none => []
    else []
  let playMsgs :=
    match it.playError with
    | some m => [PbStatusMessage.playbackError m]
    | none => []
  speedMsgs ++ playMsgs

/-- Model of `playback_loop_bytes`: process audio messages in order until
`EndOfStream` (send `PlaybackDone`, break) or a channel error (send
`PlaybackError`, break); the result is the list of status messages sent. -/
def playback_loop_bytes (p : PbParams) : List PbEvent → List PbStatusMessage
  | [] => []
  | PbEvent.audio it :: rest =>
    playback_iteration p it ++ playback_loop_bytes p rest
  | PbEvent.endOfStream :: _ => [PbStatusMessage.playbackDone]
  | PbEvent.recvError m :: _ => [PbStatusMessage.playbackError m]

/-! ## Capture byte count and buffer growth (`get_nbr_capture_bytes`) -/

/-- Model of `get_nbr_capture_bytes`: when a resampler is present the
required byte count is `nbr_frames_needed() * channels *
store_bytes_per_sample` (the resampler is abstracted to the frame count it
reports), otherwise the cached `capture_bytes`; the buffer is extended with
zero bytes when it is smaller than the new count, and never shrunk.
Returns the new byte count together with the possibly grown buffer. -/
def get_nbr_capture_bytes (capture_bytes : ℕ) (resampler : Option ℕ)
    (channels store_bytes_per_sample : ℕ) (buf : List ℕ) : ℕ × List ℕ :=
  let capture_bytes_new :=
    match resampler with
    | some nbr_frames_needed =>
      nbr_frames_needed * channels * store_bytes_per_sample
    | none => capture_bytes
  let buf' :=
    if capture_bytes_new > buf.length then
      buf ++ List.replicate (capture_bytes_new - buf.length) 0
    else buf
  (capture_bytes_new, buf')

/-! ## Capture loop: `capture_loop_bytes` (src/alsadevice.rs)

The loop is modelled as a step function over per-iteration environments.
Each `CaptEvent` carries the command received by `try_recv` (if any), the
outcome of `capture_buffer`, and the oracle values of the timing and
measurement utilities for this iteration.  The threaded state holds the
`state` field of the shared `CaptureStatus` record, the loop-local `state`
variable, and the `card_inactive` flag; the output is the ordered list of
messages sent and rate-adjust effects performed. -/

/-- The `ProcessingState` enum (src/lib.rs). -/
inductive ProcessingState where
  | Running
  | Paused
  | Inactive
  | Starting
deriving DecidableEq, Repr

/-- The `CommandMessage` enum (src/lib.rs). -/
inductive CommandMessage where
  | setSpeed (speed : ℚ)
  | exit
deriving DecidableEq, Repr

/-- Environment of one capture-loop iteration: the command drained by
`try_recv` (`none` when the channel is empty), the result of
`capture_buffer`, whether the short averager exceeded `update_interval`
(`measurementDue`), whether the watcher averager exceeded
`rate_measure_interval` (`watcherDue`), the value watcher's verdict
(`rateChanged`), and the state `silence_counter.update` computes from the
chunk's value range (`silenceState`). -/
structure CaptEvent where
  cmd : Option CommandMessage
  captureRes : Except Errno CaptureResult
  measurementDue : Bool
  watcherDue : Bool
  rateChanged : Bool
  silenceState : ProcessingState
deriving Repr

/-- The threaded mutable state of the capture loop relevant to the claims:
`CaptureStatus.state`, the local `state` variable, and `card_inactive`. -/
structure CaptLoopState where
  statusState : ProcessingState
  stateVar : ProcessingState
  cardInactive : Bool
deriving DecidableEq, Repr

/-- Messages the capture loop sends (audio queue and status channel) and
rate-adjust effects it performs, in program order. -/
inductive CaptOut where
  | audioChunk
  | endOfStream
  | captureDone
  | captureFormatChange
  | captureError
  | rateAdjust (e : SetSpeedEffect)
deriving DecidableEq, Repr

/-- How the capture loop terminated: the `Exit` command (`break`), a
detected rate change with `stop_on_rate_change` (`break`), or a fatal
capture error (the `return` arm). -/
inductive ExitKind where
  | exitCmd
  | rateChange
  | fatalError
deriving DecidableEq, Repr

/-- The parameters of `capture_loop_bytes` relevant to the modelled control
flow. -/
structure CaptParams where
  targets : RateAdjustTargets
  stop_on_rate_change : Bool
deriving Repr

/-- Result of one iteration of the capture loop: either an exit (with the
final state, the messages sent by the iteration and the exit kind — for the
two `break` paths the post-loop `capt_stat.state = Inactive` write is
already folded in, while the fatal `return` path skips it), or the state
and messages with which the loop continues. -/
inductive StepResult where
  | exit (st : CaptLoopState) (outs : List CaptOut) (kind : ExitKind)
  | next (st : CaptLoopState) (outs : List CaptOut)
deriving Repr

/-- One iteration of the `loop` body of `capture_loop_bytes`: the command
match (Exit breaks after sending `EndOfStream` and `CaptureDone`; SetSpeed
dispatches per `handle_set_speed`), the match on the `capture_buffer`
result (fatal sends `CaptureError` and `EndOfStream` and returns,
recoverable forces `Paused` and sets `card_inactive`, normal performs the
measurement bookkeeping and the rate-change check), then the silence
classification and the conditional send of the chunk. -/
def capture_iteration (p : CaptParams) (st : CaptLoopState) (e : CaptEvent) :
    StepResult :=
  match e.cmd with
  | some CommandMessage.exit =>
    StepResult.exit { st with statusState := ProcessingState.Inactive }
      [CaptOut.endOfStream, CaptOut.captureDone] ExitKind.exitCmd
  | cmd =>
    let adjustOut : List CaptOut :=
      match cmd with
      | some (CommandMessage.setSpeed speed) =>
        [CaptOut.rateAdjust (handle_set_speed p.targets speed)]
      | _ => []
    match e.captureRes with
    | Except.error _ =>
      StepResult.exit st
        (adjustOut ++ [CaptOut.captureError, CaptOut.endOfStream])
        ExitKind.fatalError
    | Except.ok CaptureResult.RecoverableError =>
      let st1 := { st with cardInactive := true,
                           statusState := ProcessingState.Paused }
      let st2 := { st1 with stateVar :=
        if st1.cardInactive then ProcessingState.Paused else e.silenceState }
      StepResult.next st2
        (adjustOut ++
          if st2.stateVar = ProcessingState.Running then [CaptOut.audioChunk]
          else [])
    | Except.ok CaptureResult.Normal =>
      let st1 :=
        if e.measurementDue then
          { st with statusState := st.stateVar, cardInactive := false }
        else st
      if e.watcherDue && e.rateChanged && p.stop_on_rate_change then
        StepResult.exit { st1 with statusState := ProcessingState.Inactive }
          (adjustOut ++ [CaptOut.endOfStream, CaptOut.captureFormatChange])
          ExitKind.rateChange
      else
        let st2 := { st1 with stateVar :=
          if st1.cardInactive then ProcessingState.Paused else e.silenceState }
        StepResult.next st2
          (adjustOut ++
            if st2.stateVar = ProcessingState.Running then [CaptOut.audioChunk]
            else [])

/-- Model of `capture_loop_bytes`: run iterations over the given
environment trace until an exit; the result is the final threaded state,
the concatenated outputs, and the exit kind (`none` when the trace ran out
with the loop still going). -/
def capture_loop_bytes (p : CaptParams) (st : CaptLoopState) :
    List CaptEvent → CaptLoopState × List CaptOut × Option ExitKind
  | [] => (st, [], none)
  | e :: rest =>
    match capture_iteration p st e with
    | StepResult.exit st' outs k => (st', outs, some k)
    | StepResult.next st' outs =>
      let tail := capture_loop_bytes p st' rest
      (tail.1, outs ++ tail.2.1, tail.2.2)

end Camilla

/-- C2: one biquad step outputs `y = s1 + b0*x` and updates the state to
`s1' = s2 + b1*x - a1*y`, `s2' = b2*x - a2*y`; `process_waveform` applies
exactly this step to each sample in order, with the state persisting across
samples and across successive waveform calls (processing `w1 ++ w2` in one
call equals processing `w1` then `w2` with the carried state). -/
theorem biquad_step_and_waveform_spec :
    (∀ (c : Camilla.BiquadCoefficients) (s1 s2 x : ℚ),
      Camilla.Biquad.process_single ⟨s1, s2, c⟩ x =
        (⟨s2 + c.b1 * x - c.a1 * (s1 + c.b0 * x),
          c.b2 * x - c.a2 * (s1 + c.b0 * x), c⟩, s1 + c.b0 * x))
  ∧ (∀ (f : Camilla.Biquad) (x : ℚ) (xs : List ℚ),
      Camilla.Biquad.process_waveform f (x :: xs) =
        Except.ok
          (((f.process_single x).1.process_list xs).1,
            (f.process_single x).2 ::
              ((f.process_single x).1.process_list xs).2))
  ∧ (∀ (f : Camilla.Biquad) (w1 w2 : List ℚ),
      Camilla.Biquad.process_list f (w1 ++ w2) =
        ((Camilla.Biquad.process_list (f.process_list w1).1 w2).1,
          (f.process_list w1).2 ++
            (Camilla.Biquad.process_list (f.process_list w1).1 w2).2)) := by
  refine ⟨fun c s1 s2 x => rfl, fun f x xs => rfl, fun f w1 w2 => ?_⟩
  induction w1 generalizing f with
  | nil => simp [Camilla.Biquad.process_list]
  | cons x xs ih =>
    simp [Camilla.Biquad.process_list, ih]

/-- C9: `process_waveform` always returns `Ok` (the error branch of its
`Res<()>` result is unreachable), and the processed waveform — the list of
outputs it stores back into the buffer — has the same length as the input
waveform, for every coefficient set, delay state and waveform, including
the empty one. -/
theorem process_waveform_ok_and_length :
    ∀ (f : Camilla.Biquad) (w : List ℚ),
      (Camilla.Biquad.process_waveform f w).isOk = true
      ∧ (Camilla.Biquad.process_waveform f w =
          Except.ok ((f.process_list w).1, (f.process_list w).2))
      ∧ ((f.process_list w).2).length = w.length := by
  intro f w
  refine ⟨rfl, rfl, ?_⟩
  induction w generalizing f with
  | nil => rfl
  | cons x xs ih => simp [Camilla.Biquad.process_list, ih]

/-- C1 counterexample: at `fs = 44100`, `freq = 11025`, `slope = 12`,
`gain = 40` (so `cs = cos(pi/2) = 0` and `ampl = 10`), the Lowshelf raw
coefficients differ from the Highshelf raw coefficients with every `cs`
term sign-swapped: the `b1` fields are `180` and `-180`. -/
theorem lowshelf_cs_swap_counterexample :
    Camilla.lowshelfFromConfig 44100 11025 12 40 ≠
      Camilla.highshelfCsSwappedFromConfig 44100 11025 12 40 := by
  have homega : Camilla.omegaOf 44100 (11025 : ℝ) = Real.pi / 2 := by
    unfold Camilla.omegaOf
    push_cast
    ring
  have hcs : Real.cos (Camilla.omegaOf 44100 (11025 : ℝ)) = 0 := by
    rw [homega]
    exact Real.cos_pi_div_two
  have hampl : Camilla.amplOf 40 = 10 := by
    unfold Camilla.amplOf
    have h1 : (40 : ℝ) / 40 = 1 := by norm_num
    rw [h1, Real.rpow_one]
  intro h
  have hb1 := congrArg Camilla.RawCoeffs.b1 h
  simp only [Camilla.lowshelfFromConfig, Camilla.highshelfCsSwappedFromConfig,
    Camilla.lowshelfRaw, Camilla.highshelfRaw, hcs, hampl] at hb1
  norm_num at hb1

/-- C1 amended: for every sample rate and every `{freq, slope, gain}`, the
Lowshelf pre-normalization coefficients `b0`, `b2`, `a0`, `a2` equal the
Highshelf ones with the sign of every `cs` term swapped, while `b1` and
`a1` are the NEGATION of the cs-swapped Highshelf expressions —
equivalently, in `b1` and `a1` the `cs` term keeps its sign and the
cs-free term swaps its sign instead. -/
theorem lowshelf_highshelf_mirror_amended :
    ∀ (fs : ℕ) (freq slope gain : ℝ),
      (Camilla.lowshelfFromConfig fs freq slope gain).b0 =
        (Camilla.highshelfCsSwappedFromConfig fs freq slope gain).b0
      ∧ (Camilla.lowshelfFromConfig fs freq slope gain).b2 =
        (Camilla.highshelfCsSwappedFromConfig fs freq slope gain).b2
      ∧ (Camilla.lowshelfFromConfig fs freq slope gain).a0 =
        (Camilla.highshelfCsSwappedFromConfig fs freq slope gain).a0
      ∧ (Camilla.lowshelfFromConfig fs freq slope gain).a2 =
        (Camilla.highshelfCsSwappedFromConfig fs freq slope gain).a2
      ∧ (Camilla.lowshelfFromConfig fs freq slope gain).b1 =
        -(Camilla.highshelfCsSwappedFromConfig fs freq slope gain).b1
      ∧ (Camilla.lowshelfFromConfig fs freq slope gain).a1 =
        -(Camilla.highshelfCsSwappedFromConfig fs freq slope gain).a1 := by
  intro fs freq slope gain
  simp only [Camilla.lowshelfFromConfig, Camilla.highshelfCsSwappedFromConfig,
    Camilla.lowshelfRaw, Camilla.highshelfRaw]
  refine ⟨by ring, by ring, by ring, by ring, by ring, by ring⟩

/-- C3 counterexample: at `speed = 3/8` with the hardware rate-shift
control present, the value written is `castToI32 (100000 / (3/8)) =
266666` (truncation toward zero of `800000/3`), not the claimed
round-to-nearest `round (800000/3) = 266667`. -/
theorem set_speed_round_counterexample :
    Camilla.handle_set_speed ⟨true, false, false, false⟩ (3 / 8) ≠
      Camilla.SetSpeedEffect.writeLoopback (round ((100000 : ℚ) / (3 / 8))) := by
  have hfloor : ⌊(100000 : ℚ) / (3 / 8)⌋ = (266666 : ℤ) := by
    rw [Int.floor_eq_iff]
    norm_num
  have hround : round ((100000 : ℚ) / (3 / 8)) = (266667 : ℤ) := by
    rw [round_eq, Int.floor_eq_iff]
    norm_num
  have hcast : Camilla.castToI32 ((100000 : ℚ) / (3 / 8)) = 266666 := by
    unfold Camilla.castToI32
    rw [if_pos (by norm_num), hfloor]
    norm_num
  simp only [Camilla.handle_set_speed, hround]
  simp [hcast]

/-- C3 amended: the integer written to the hardware rate-shift control is
the `i32` cast (truncation toward zero) of `100000 / speed`, and the
integer written to the USB-gadget pitch control is the `i32` cast of
`speed * 1000000` — truncation, not rounding to nearest. -/
theorem set_speed_values_amended :
    ∀ (speed : ℚ),
      (∀ (u r a : Bool),
        Camilla.handle_set_speed ⟨true, u, r, a⟩ speed =
          Camilla.SetSpeedEffect.writeLoopback (Camilla.castToI32 (100000 / speed)))
      ∧ (∀ (r a : Bool),
        Camilla.handle_set_speed ⟨false, true, r, a⟩ speed =
          Camilla.SetSpeedEffect.writeUac2 (Camilla.castToI32 (speed * 1000000))) := by
  intro speed
  exact ⟨fun u r a => rfl, fun r a => rfl⟩

/-- C4: exactly one adjustment target receives a `SetSpeed` ratio, by
strict priority: the hardware rate-shift control whenever present
(regardless of the other targets — in particular the resampler is never
adjusted then); otherwise the USB-gadget pitch control whenever present;
otherwise the resampler, and only when it is asynchronous; otherwise no
target is adjusted. -/
theorem set_speed_strict_priority :
    ∀ (speed : ℚ),
      (∀ (u r a : Bool), ∃ v,
        Camilla.handle_set_speed ⟨true, u, r, a⟩ speed =
          Camilla.SetSpeedEffect.writeLoopback v)
      ∧ (∀ (r a : Bool), ∃ v,
        Camilla.handle_set_speed ⟨false, true, r, a⟩ speed =
          Camilla.SetSpeedEffect.writeUac2 v)
      ∧ (Camilla.handle_set_speed ⟨false, false, true, true⟩ speed =
          Camilla.SetSpeedEffect.adjustResampler speed)
      ∧ (Camilla.handle_set_speed ⟨false, false, true, false⟩ speed =
          Camilla.SetSpeedEffect.noAdjust)
      ∧ (∀ (a : Bool),
        Camilla.handle_set_speed ⟨false, false, false, a⟩ speed =
          Camilla.SetSpeedEffect.noAdjust) := by
  intro speed
  exact ⟨fun u r a => ⟨_, rfl⟩, fun r a => ⟨_, rfl⟩, rfl, rfl, fun a => rfl⟩

/-- C7: with the device running and the blocking read reached, an `EIO`
read error yields `Ok(RecoverableError)` when `retry` is set and is fatal
otherwise; an `EPIPE` read error with `retry` set prepares the device and
re-issues the read exactly once — a failure of the prepare or of the
re-issued read is fatal, a success yields `Normal` — and is fatal without
`retry`; every other read error is fatal regardless of `retry`. -/
theorem capture_buffer_read_error_dispatch :
    ∀ (retry : Bool) (samplerate frames_to_read : ℕ)
      (availRes : Except Camilla.Errno ℕ) (availAfterWait : ℕ)
      (pr2 : Option Camilla.Errno) (r2 : Except Camilla.Errno ℕ) (n : ℕ),
      (Camilla.capture_buffer
          ⟨Camilla.PcmState.Running, none, none, availRes, availAfterWait,
            Except.error Camilla.Errno.EIO, pr2, r2⟩
          retry false samplerate frames_to_read =
        if retry then Except.ok Camilla.CaptureResult.RecoverableError
        else Except.error Camilla.Errno.EIO)
    ∧ (Camilla.capture_buffer
          ⟨Camilla.PcmState.Running, none, none, availRes, availAfterWait,
            Except.error Camilla.Errno.EPIPE, pr2, r2⟩
          true false samplerate frames_to_read =
        match pr2 with
        | some e => Except.error e
        | none =>
          match r2 with
          | Except.ok _ => Except.ok Camilla.CaptureResult.Normal
          | Except.error e => Except.error e)
    ∧ (Camilla.capture_buffer
          ⟨Camilla.PcmState.Running, none, none, availRes, availAfterWait,
            Except.error Camilla.Errno.EPIPE, pr2, r2⟩
          false false samplerate frames_to_read =
        Except.error Camilla.Errno.EPIPE)
    ∧ (Camilla.capture_buffer
          ⟨Camilla.PcmState.Running, none, none, availRes, availAfterWait,
            Except.error (Camilla.Errno.other n), pr2, r2⟩
          retry false samplerate frames_to_read =
        Except.error (Camilla.Errno.other n)) := by
  intro retry samplerate frames_to_read availRes availAfterWait pr2 r2 n
  refine ⟨?_, ?_, ?_, ?_⟩
  · cases retry <;> simp [Camilla.capture_buffer]
  · cases pr2 with
    | some e => simp [Camilla.capture_buffer]
    | none => cases r2 <;> simp [Camilla.capture_buffer]
  · simp [Camilla.capture_buffer]
  · cases retry <;> simp [Camilla.capture_buffer]

/-- C6: whenever `adjust_period = 0` or rate adjust is disabled, the
playback loop never sends a `SetSpeed` status message, regardless of the
chunks received and the measured buffer delays. -/
theorem playback_no_set_speed_when_adjust_off :
    ∀ (p : Camilla.PbParams) (events : List Camilla.PbEvent),
      (p.adjust_period = 0 ∨ p.adjust_enabled = false) →
      ∀ (s : ℚ),
        Camilla.PbStatusMessage.setSpeed s ∉
          Camilla.playback_loop_bytes p events := by
  intro p events h s
  have hadj : (decide (0 < p.adjust_period) && p.adjust_enabled) = false := by
    rcases h with h0 | hen
    · simp [h0]
    · simp [hen]
  induction events with
  | nil => simp [Camilla.playback_loop_bytes]
  | cons e rest ih =>
    cases e with
    | audio it =>
      rcases it with ⟨cl, dl, te, ad, pe⟩
      simp only [Camilla.playback_loop_bytes, List.mem_append, not_or]
      refine ⟨?_, ih⟩
      simp only [Camilla.playback_iteration, hadj]
      cases te <;> cases ad <;> cases pe <;> simp
    | endOfStream => simp [Camilla.playback_loop_bytes]
    | recvError m => simp [Camilla.playback_loop_bytes]

/-- C6 witness: with `adjust_period = 0`, an audio iteration whose
stopwatch elapsed and whose averager holds a value still emits no
`SetSpeed`. -/
theorem playback_no_set_speed_witness :
    Camilla.PbStatusMessage.setSpeed 1 ∉
      Camilla.playback_loop_bytes ⟨1024, 0, true, 48000⟩
        [Camilla.PbEvent.audio ⟨0, none, true, some 5, none⟩] :=
  playback_no_set_speed_when_adjust_off ⟨1024, 0, true, 48000⟩
    [Camilla.PbEvent.audio ⟨0, none, true, some 5, none⟩] (Or.inl rfl) 1

/-- C8: when `play_buffer` fails even after its internal prepare-and-retry,
the playback loop sends a `PlaybackError` status message and continues with
the subsequent audio messages: the messages of the failing iteration are
exactly those of the same iteration without the failure plus the one
`PlaybackError`, no `PlaybackDone` is emitted by it, and the loop processes
the rest of the queue unchanged. -/
theorem playback_write_failure_continues :
    ∀ (p : Camilla.PbParams) (cl : ℕ) (dl : Option ℚ) (te : Bool)
      (ad : Option ℚ) (m : String) (rest : List Camilla.PbEvent),
      (Camilla.playback_loop_bytes p
          (Camilla.PbEvent.audio ⟨cl, dl, te, ad, some m⟩ :: rest) =
        Camilla.playback_iteration p ⟨cl, dl, te, ad, some m⟩ ++
          Camilla.playback_loop_bytes p rest)
      ∧ Camilla.PbStatusMessage.playbackError m ∈
          Camilla.playback_iteration p ⟨cl, dl, te, ad, some m⟩
      ∧ Camilla.PbStatusMessage.playbackDone ∉
          Camilla.playback_iteration p ⟨cl, dl, te, ad, some m⟩
      ∧ Camilla.playback_iteration p ⟨cl, dl, te, ad, some m⟩ =
          Camilla.playback_iteration p ⟨cl, dl, te, ad, none⟩ ++
            [Camilla.PbStatusMessage.playbackError m] := by
  intro p cl dl te ad m rest
  refine ⟨rfl, ?_, ?_, ?_⟩
  · simp [Camilla.playback_iteration]
  · simp only [Camilla.playback_iteration]
    cases te <;> cases ad <;> simp
  · simp [Camilla.playback_iteration]

/-- C10: the byte count returned by `get_nbr_capture_bytes` never exceeds
the length of the returned capture buffer (the buffer is grown with zeros
when too small), and the buffer is never shrunk; hence the slice
`buffer[0..capture_bytes]` taken right afterwards is in bounds. -/
theorem get_nbr_capture_bytes_bounds :
    ∀ (capture_bytes : ℕ) (resampler : Option ℕ)
      (channels store_bytes_per_sample : ℕ) (buf : List ℕ),
      (Camilla.get_nbr_capture_bytes capture_bytes resampler channels
          store_bytes_per_sample buf).1 ≤
        (Camilla.get_nbr_capture_bytes capture_bytes resampler channels
          store_bytes_per_sample buf).2.length
      ∧ buf.length ≤
        (Camilla.get_nbr_capture_bytes capture_bytes resampler channels
          store_bytes_per_sample buf).2.length := by
  intro cb r ch sb buf
  have key : ∀ (n : ℕ),
      n ≤ (if n > buf.length then
              buf ++ List.replicate (n - buf.length) 0
            else buf).length
      ∧ buf.length ≤ (if n > buf.length then
              buf ++ List.replicate (n - buf.length) 0
            else buf).length := by
    intro n
    by_cases h : n > buf.length
    · rw [if_pos h]
      simp only [List.length_append, List.length_replicate]
      omega
    · rw [if_neg h]
      omega
  rcases r with _ | k
  · simpa [Camilla.get_nbr_capture_bytes] using key cb
  · simpa [Camilla.get_nbr_capture_bytes] using key (k * ch * sb)

/-- Helper for the capture loop: whenever a single iteration exits through
one of the two `break` paths (Exit command or rate change), the resulting
status state is `Inactive`; only the fatal `return` path can exit
otherwise. -/
theorem capture_iteration_break_inactive :
    ∀ (p : Camilla.CaptParams) (st : Camilla.CaptLoopState)
      (e : Camilla.CaptEvent) (st' : Camilla.CaptLoopState)
      (outs : List Camilla.CaptOut) (k : Camilla.ExitKind),
      Camilla.capture_iteration p st e = Camilla.StepResult.exit st' outs k →
      k ≠ Camilla.ExitKind.fatalError →
      st'.statusState = Camilla.ProcessingState.Inactive := by
  intro p st e st' outs k h hk
  rcases e with ⟨cm, cr, md, wd, rc, ss⟩
  rcases cm with _ | cmd
  · cases cr with
    | error err =>
      simp only [Camilla.capture_iteration] at h
      injection h with h1 h2 h3
      exact absurd h3.symm hk
    | ok res =>
      cases res with
      | Normal =>
        simp only [Camilla.capture_iteration] at h
        split at h
        · injection h with h1 h2 h3
          rw [← h1]
        · exact Camilla.StepResult.noConfusion h
      | RecoverableError =>
        simp only [Camilla.capture_iteration] at h
        exact Camilla.StepResult.noConfusion h
  · cases cmd with
    | exit =>
      simp only [Camilla.capture_iteration] at h
      injection h with h1 h2 h3
      rw [← h1]
    | setSpeed s =>
      cases cr with
      | error err =>
        simp only [Camilla.capture_iteration] at h
        injection h with h1 h2 h3
        exact absurd h3.symm hk
      | ok res =>
        cases res with
        | Normal =>
          simp only [Camilla.capture_iteration] at h
          split at h
          · injection h with h1 h2 h3
            rw [← h1]
          · exact Camilla.StepResult.noConfusion h
        | RecoverableError =>
          simp only [Camilla.capture_iteration] at h
          exact Camilla.StepResult.noConfusion h

/-- C5 counterexample: a run that terminates through the fatal-error path
(sending `CaptureError` then `EndOfStream`) leaves `CaptureStatus.state`
at `Running` — the `return` arm skips the post-loop write of `Inactive`,
so the claimed final effect does not happen on this terminal exit. -/
theorem capture_fatal_exit_counterexample :
    Camilla.capture_loop_bytes ⟨⟨false, false, false, false⟩, false⟩
        ⟨Camilla.ProcessingState.Running, Camilla.ProcessingState.Running,
          false⟩
        [⟨none, Except.error Camilla.Errno.EIO, false, false, false,
          Camilla.ProcessingState.Running⟩] =
      (⟨Camilla.ProcessingState.Running, Camilla.ProcessingState.Running,
          false⟩,
        [Camilla.CaptOut.captureError, Camilla.CaptOut.endOfStream],
        some Camilla.ExitKind.fatalError)
    ∧ Camilla.ProcessingState.Running ≠ Camilla.ProcessingState.Inactive := by
  exact ⟨rfl, by decide⟩

/-- C5 amended: on the two `break` exits of the capture loop — Exit command
and detected rate change with `stop_on_rate_change` — the final effect on
`CaptureStatus` is to set its state to `Inactive`; on a fatal capture error
the loop sends `CaptureError` followed by `EndOfStream` and returns without
writing `Inactive` (the state field keeps the value it had when the
iteration began). -/
theorem capture_terminal_state_amended :
    (∀ (p : Camilla.CaptParams) (st : Camilla.CaptLoopState)
        (events : List Camilla.CaptEvent) (st' : Camilla.CaptLoopState)
        (outs : List Camilla.CaptOut) (k : Camilla.ExitKind),
      Camilla.capture_loop_bytes p st events = (st', outs, some k) →
      k ≠ Camilla.ExitKind.fatalError →
      st'.statusState = Camilla.ProcessingState.Inactive)
    ∧ (∀ (p : Camilla.CaptParams) (st : Camilla.CaptLoopState)
        (err : Camilla.Errno) (md wd rc : Bool)
        (ss : Camilla.ProcessingState),
      Camilla.capture_iteration p st ⟨none, Except.error err, md, wd, rc, ss⟩ =
        Camilla.StepResult.exit st
          [Camilla.CaptOut.captureError, Camilla.CaptOut.endOfStream]
          Camilla.ExitKind.fatalError)
    ∧ (∀ (p : Camilla.CaptParams) (st : Camilla.CaptLoopState) (s : ℚ)
        (err : Camilla.Errno) (md wd rc : Bool)
        (ss : Camilla.ProcessingState),
      Camilla.capture_iteration p st
          ⟨some (Camilla.CommandMessage.setSpeed s), Except.error err,
            md, wd, rc, ss⟩ =
        Camilla.StepResult.exit st
          (Camilla.CaptOut.rateAdjust (Camilla.handle_set_speed p.targets s) ::
            [Camilla.CaptOut.captureError, Camilla.CaptOut.endOfStream])
          Camilla.ExitKind.fatalError) := by
  refine ⟨?_, fun p st err md wd rc ss => rfl,
    fun p st s err md wd rc ss => rfl⟩
  intro p st events
  induction events generalizing st with
  | nil =>
    intro st' outs k h hk
    simp [Camilla.capture_loop_bytes] at h
  | cons e rest ih =>
    intro st' outs k h hk
    simp only [Camilla.capture_loop_bytes] at h
    cases hit : Camilla.capture_iteration p st e with
    | exit st2 outs2 k2 =>
      rw [hit] at h
      injection h with h1 h23
      injection h23 with h2 h3
      injection h3 with h3
      rw [← h1]
      rw [← h3] at hk
      exact capture_iteration_break_inactive p st e st2 outs2 k2 hit hk
    | next st2 outs2 =>
      rw [hit] at h
      dsimp only at h
      rcases htail : Camilla.capture_loop_bytes p st2 rest with ⟨ts, touts, tk⟩
      rw [htail] at h
      injection h with h1 h23
      injection h23 with h2 h3
      rw [← h1]
      exact ih st2 ts touts k (h3 ▸ htail) hk

/-- C5 witness: a concrete Exit-command run ends with `Inactive`. -/
theorem capture_terminal_state_witness :
    Camilla.capture_loop_bytes ⟨⟨false, false, false, false⟩, false⟩
        ⟨Camilla.ProcessingState.Running, Camilla.ProcessingState.Running,
          false⟩
        [⟨some Camilla.CommandMessage.exit,
          Except.ok Camilla.CaptureResult.Normal, false, false, false,
          Camilla.ProcessingState.Running⟩] =
      (⟨Camilla.ProcessingState.Inactive, Camilla.ProcessingState.Running,
          false⟩,
        [Camilla.CaptOut.endOfStream, Camilla.CaptOut.captureDone],
        some Camilla.ExitKind.exitCmd)
    ∧ (⟨Camilla.ProcessingState.Inactive, Camilla.ProcessingState.Running,
          false⟩ : Camilla.CaptLoopState).statusState =
        Camilla.ProcessingState.Inactive :=
  ⟨rfl,
    capture_terminal_state_amended.1 ⟨⟨false, false, false, false⟩, false⟩
      ⟨Camilla.ProcessingState.Running, Camilla.ProcessingState.Running,
        false⟩
      [⟨some Camilla.CommandMessage.exit,
        Except.ok Camilla.CaptureResult.Normal, false, false, false,
        Camilla.ProcessingState.Running⟩]
      ⟨Camilla.ProcessingState.Inactive, Camilla.ProcessingState.Running,
        false⟩
      [Camilla.CaptOut.endOfStream, Camilla.CaptOut.captureDone]
      Camilla.ExitKind.exitCmd rfl (by decide)⟩
